import Mathlib

/-!
Verification of the URL-shortener engine (`libs/engine`): a shallow
embedding of the locator validator/normalizer
(`src/domain/url-validation.ts`), the shorten use case
(`src/use-cases/shorten-url.ts`), the resolve use case
(`src/use-cases/get-original-url.ts`), and the Prisma-backed store
adapters (`src/adapters/prisma-repository.ts`), together with theorems
about the spec's claimed properties.
-/

namespace UrlShortener

/-- Decidable equality for `Except`, used to evaluate the embedded
operations on concrete inputs. -/
instance {ε α : Type _} [DecidableEq ε] [DecidableEq α] : DecidableEq (Except ε α) := fun a b =>
  match a, b with
  | .error e, .error f =>
    if h : e = f then .isTrue (by subst h; rfl) else .isFalse (by simp [h])
  | .error _, .ok _ => .isFalse (by simp)
  | .ok _, .error _ => .isFalse (by simp)
  | .ok v, .ok w =>
    if h : v = w then .isTrue (by subst h; rfl) else .isFalse (by simp [h])

/-! ## Models of the JavaScript string methods the source uses

Core Lean string primitives are byte-position based and do not reduce
inside the kernel, so the JavaScript methods (`trim`, `startsWith`,
`endsWith`, `slice(0, -1)`, the dotted-quad regex) are modelled
directly over the character list of the string. -/

/-- The ASCII whitespace characters stripped by `String.prototype.trim`. -/
def isJsWhitespace (c : Char) : Bool :=
  c == ' ' || c == '\t' || c == '\n' || c == '\r' || c == '\x0b' || c == '\x0c'

/-- Model of `String.prototype.trim`: strip whitespace at both ends. -/
def jsTrim (s : String) : String :=
  String.mk ((s.data.dropWhile isJsWhitespace).reverse.dropWhile isJsWhitespace).reverse

/-- Whether the first list is an initial run of the second. -/
def charsLeadWith : List Char → List Char → Bool
  | [], _ => true
  | _ :: _, [] => false
  | p :: ps, c :: cs => p == c && charsLeadWith ps cs

/-- Model of `String.prototype.startsWith`. -/
def jsStartsWith (s pat : String) : Bool := charsLeadWith pat.data s.data

/-- Model of `String.prototype.endsWith`. -/
def jsEndsWith (s pat : String) : Bool := charsLeadWith pat.data.reverse s.data.reverse

/-- Model of `String.prototype.slice(0, -1)`: drop the final character. -/
def jsDropLast (s : String) : String := String.mk s.data.dropLast

/-! ## Model of the platform URL parser

`validateUrl` and `normalizeUrl` parse locators through the global
WHATWG `URL` constructor.  The definitions below model that parser on
the fragment of inputs this development uses: scheme, authority
(userinfo dropped, host lowercased for special schemes, default port
elided), path split at the first `?`/`#`, query and fragment.
Canonicalizations not modelled: percent-encoding, dot-segment
resolution, IPv4/IPv6 canonical forms, IDNA.  None of these occur in
the inputs any theorem below evaluates the parser on. -/

/-- The special schemes of the WHATWG URL standard with their default
ports, as recognised by the platform URL constructor. -/
def specialSchemes : List (String × Option Nat) :=
  [("http", some 80), ("https", some 443), ("ws", some 80), ("wss", some 443),
   ("ftp", some 21), ("file", none)]

/-- Whether a scheme is one of the WHATWG special schemes. -/
def isSpecialScheme (scheme : String) : Bool :=
  (specialSchemes.lookup scheme).isSome

/-- Default port of a scheme (elided from the parsed record). -/
def defaultPort (scheme : String) : Option Nat :=
  match specialSchemes.lookup scheme with
  | some p => p
  | none => none

/-- First character of a scheme: an ASCII letter. -/
def isSchemeHeadChar (c : Char) : Bool := c.isAlpha

/-- Subsequent scheme characters: ASCII alphanumeric or `+`, `-`, `.`. -/
def isSchemeTailChar (c : Char) : Bool :=
  c.isAlphanum || c == '+' || c == '-' || c == '.'

/-- Forbidden host code points of the WHATWG standard (parsing fails
when the host contains one of them). -/
def forbiddenHostChar (c : Char) : Bool :=
  c == '\x00' || c == '\t' || c == '\n' || c == '\r' || c == ' ' || c == '#' ||
  c == '/' || c == ':' || c == '<' || c == '>' || c == '?' || c == '@' ||
  c == '[' || c == '\\' || c == ']' || c == '^' || c == '|'

/-- Accumulating helper for `splitScheme`. -/
def splitSchemeAux : List Char → List Char → Option (String × List Char)
  | _, [] => none
  | acc, c :: rest =>
    if c == ':' then some (String.mk (acc.reverse.map Char.toLower), rest)
    else if isSchemeTailChar c then splitSchemeAux (c :: acc) rest
    else none

/-- Split off the (lowercased) scheme in front of the first `:`;
fails when the input has no scheme. -/
def splitScheme (cs : List Char) : Option (String × List Char) :=
  match cs with
  | [] => none
  | c :: rest => if isSchemeHeadChar c then splitSchemeAux [c] rest else none

/-- Drop the userinfo portion of an authority: the characters after the
last `@`, or the whole chunk when there is no `@`. -/
def afterLastAt (cs : List Char) : List Char :=
  let (rhost, rrest) := cs.reverse.span (fun c => c != '@')
  if rrest.isEmpty then cs else rhost.reverse

/-- Decimal value of a digit list. -/
def portDigitsValue (ds : List Char) : Nat :=
  ds.foldl (fun a c => a * 10 + (c.toNat - 48)) 0

/-- Parse the `host[:port]` chunk of an authority.  `lower` lowercases
the host (special schemes); `allowEmptyHost` permits an empty host
(non-special schemes and `file`).  An empty host with a port, a
forbidden host code point, a non-numeric port, or a port above 65535
fails; a port equal to the scheme's default is elided. -/
def parseHostPort (scheme : String) (lower allowEmptyHost : Bool) (cs : List Char) :
    Option (String × Option Nat) :=
  let (hostCs, portCs) := cs.span (fun c => c != ':')
  if hostCs.any forbiddenHostChar then none
  else if hostCs.isEmpty then
    if portCs.isEmpty && allowEmptyHost then some ("", none) else none
  else
    let host := String.mk (if lower then hostCs.map Char.toLower else hostCs)
    match portCs with
    | [] => some (host, none)
    | _ :: ps =>
      if ps.isEmpty then some (host, none)
      else if ps.all Char.isDigit then
        let v := portDigitsValue ps
        if v > 65535 then none
        else if defaultPort scheme == some v then some (host, none)
        else some (host, some v)
      else none

/-- A parsed URL, mirroring the component accessors of the platform
`URL` object that the source reads (`protocol`, `host`, `hostname`,
`pathname`, `search`, `hash`). -/
structure URLRecord where
  scheme : String
  host : String
  port : Option Nat
  pathname : String
  search : String
  hash : String
deriving Repr, DecidableEq

/-- The `protocol` accessor: scheme plus trailing colon. -/
def URLRecord.protocol (u : URLRecord) : String := u.scheme ++ ":"

/-- The `hostname` accessor: host without the port. -/
def URLRecord.hostname (u : URLRecord) : String := u.host

/-- The `host` accessor: hostname plus `:port` when a non-default port
is present. -/
def URLRecord.hostWithPort (u : URLRecord) : String :=
  match u.port with
  | some p => u.host ++ ":" ++ toString p
  | none => u.host

/-- Split the part after the authority into `pathname`, `search` and
`hash`.  For special schemes backslashes are path separators and an
empty path serializes as `/`; the `search`/`hash` accessors render an
empty query/fragment as the empty string. -/
def parseTail (special : Bool) (rest : List Char) : String × String × String :=
  let (pathCs, rest1) := rest.span (fun c => c != '?' && c != '#')
  let pathCs := if special then pathCs.map (fun c => if c == '\\' then '/' else c) else pathCs
  let pathname :=
    if pathCs.isEmpty then (if special then "/" else "") else String.mk pathCs
  let (search, rest2) :=
    match rest1 with
    | '?' :: r =>
      let (q, r2) := r.span (fun c => c != '#')
      (if q.isEmpty then "" else "?" ++ String.mk q, r2)
    | r => ("", r)
  let hash :=
    match rest2 with
    | '#' :: f => if f.isEmpty then "" else "#" ++ String.mk f
    | _ => ""
  (pathname, search, hash)

/-- Model of the platform URL constructor, `none` modelling a thrown
`TypeError`.  Tabs and newlines are stripped; for special non-file
schemes all slashes after `scheme:` are skipped and a non-empty host is
required; `file` and non-special schemes take an authority only after
`//` and may have an empty host; otherwise the remainder is an opaque
path. -/
def URL.parse (input : String) : Option URLRecord :=
  let cs := input.data.filter (fun c => c != '\t' && c != '\n' && c != '\r')
  match splitScheme cs with
  | none => none
  | some (scheme, rest) =>
    if isSpecialScheme scheme && scheme != "file" then
      let rest := rest.dropWhile (fun c => c == '/' || c == '\\')
      let (auth, tail) := rest.span (fun c => c != '/' && c != '\\' && c != '?' && c != '#')
      match parseHostPort scheme true false (afterLastAt auth) with
      | none => none
      | some (host, port) =>
        let (pathname, search, hash) := parseTail true tail
        some ⟨scheme, host, port, pathname, search, hash⟩
    else if scheme == "file" then
      match rest with
      | '/' :: '/' :: rest2 =>
        let (auth, tail) := rest2.span (fun c => c != '/' && c != '\\' && c != '?' && c != '#')
        match parseHostPort scheme true true (afterLastAt auth) with
        | none => none
        | some (host, port) =>
          let (pathname, search, hash) := parseTail true tail
          some ⟨scheme, host, port, pathname, search, hash⟩
      | _ =>
        let (pathname, search, hash) := parseTail true rest
        some ⟨scheme, "", none, pathname, search, hash⟩
    else
      match rest with
      | '/' :: '/' :: rest2 =>
        let (auth, tail) := rest2.span (fun c => c != '/' && c != '?' && c != '#')
        match parseHostPort scheme false true (afterLastAt auth) with
        | none => none
        | some (host, port) =>
          let (pathname, search, hash) := parseTail false tail
          some ⟨scheme, host, port, pathname, search, hash⟩
      | _ =>
        let (pathname, search, hash) := parseTail false rest
        some ⟨scheme, "", none, pathname, search, hash⟩

/-! ## The locator validator/normalizer (`src/domain/url-validation.ts`) -/

/-- Split a character list at every dot. -/
def splitOnDot : List Char → List (List Char)
  | [] => [[]]
  | c :: cs =>
    if c == '.' then [] :: splitOnDot cs
    else
      match splitOnDot cs with
      | [] => [[c]]
      | g :: gs => (c :: g) :: gs

/-- Model of the regular-expression test of `validateUrl` matching a
literal dotted-quad IPv4 address: four non-empty all-digit components
separated by dots. -/
def isDottedQuad (s : String) : Bool :=
  match splitOnDot s.data with
  | [a, b, c, d] =>
    !a.isEmpty && !b.isEmpty && !c.isEmpty && !d.isEmpty &&
    a.all Char.isDigit && b.all Char.isDigit &&
    c.all Char.isDigit && d.all Char.isDigit
  | _ => false

/-- Embedding of `validateUrl` (src/domain/url-validation.ts).  The error value is
the message of the thrown `InvalidUrlError`.  The leading
typeof-string check of the source is unrepresentable here: every Lean
input already is a string. -/
def validateUrl (url : String) : Except String Unit :=
  let trimmedUrl := jsTrim url
  if trimmedUrl.data.length = 0 then .error "URL cannot be empty or whitespace only"
  else
    match URL.parse trimmedUrl with
    | none => .error "Invalid URL format"
    | some parsedUrl =>
      if parsedUrl.protocol ≠ "https:" then .error "URL must use HTTPS protocol"
      else if parsedUrl.hostname.data.length = 0 then .error "URL must have a valid hostname"
      else if parsedUrl.hostname = "localhost" ∨ parsedUrl.hostname = "127.0.0.1" ∨
          jsStartsWith parsedUrl.hostname "192.168." = true ∨
          jsStartsWith parsedUrl.hostname "10." = true ∨
          isDottedQuad parsedUrl.hostname = true then
        .error "URL cannot be a local or private IP address"
      else .ok ()

/-- Embedding of `normalizeUrl` (src/domain/url-validation.ts): trim, parse, then
rebuild `protocol//host` plus the path with a single trailing slash
removed (root path omitted), then query and fragment.  `none` models
the URL constructor throwing on an unparseable input. -/
def normalizeUrl (url : String) : Option String :=
  let trimmedUrl := jsTrim url
  match URL.parse trimmedUrl with
  | none => none
  | some parsedUrl =>
    let normalized := parsedUrl.protocol ++ "//" ++ parsedUrl.hostWithPort
    let pathname := parsedUrl.pathname
    let normalized :=
      if pathname = "/" ∨ pathname = "" then normalized
      else normalized ++ (if jsEndsWith pathname "/" then jsDropLast pathname else pathname)
    let normalized := if parsedUrl.search ≠ "" then normalized ++ parsedUrl.search else normalized
    if parsedUrl.hash ≠ "" then normalized ++ parsedUrl.hash else normalized

/-! ## Data model (`src/domain/url.ts`, prisma schema)

A persisted locator record.  The optional database `id` is omitted:
the engine never reads it (the analytics adapter resolves the foreign
key through the unique `shortCode`, see below).  `createdAt` is a
timestamp modelled as a natural number. -/

/-- A locator record as persisted by the store. -/
structure Url where
  originalUrl : String
  shortCode : String
  createdAt : Nat
deriving Repr, DecidableEq

/-- A visit row.  The prisma schema keys visits by the record's
database id; since `shortCode` is a database-unique key for records,
the visit is modelled as keyed by `shortCode`. -/
structure Visit where
  shortCode : String
  userAgent : Option String
deriving Repr, DecidableEq

/-- The database state behind the Prisma client: the `url` table in
insertion order and the `visit` table. -/
structure Store where
  urls : List Url
  visits : List Visit
deriving Repr, DecidableEq

/-! ## Ports (`src/ports/repository.ts`)

The use cases depend on the `UrlRepository` and `AnalyticsRepository`
interfaces.  Each operation is modelled as a state transformer over an
abstract store state `σ` that can also fail with a store-layer error
(a rejected promise).  `findAllWithStats`, used only by the dashboard
listing outside the engine's use cases, is omitted. -/

/-- A store-layer failure (`DatabaseError` and its subclasses). -/
inductive StoreErr where
  | db (message : String)
deriving Repr, DecidableEq

/-- The `UrlRepository` port. -/
structure UrlRepository (σ : Type) where
  save : Url → σ → Except StoreErr Url × σ
  findByShortCode : String → σ → Except StoreErr (Option Url) × σ
  findAll : σ → Except StoreErr (List Url) × σ

/-- The `AnalyticsRepository` port. -/
structure AnalyticsRepository (σ : Type) where
  trackVisit : String → Option String → σ → Except StoreErr Unit × σ
  getVisits : String → σ → Except StoreErr Nat × σ

/-- One store operation, recorded in the trace a use-case run
produces; used to state which store calls a run performs. -/
inductive StoreOp where
  | findAll
  | findByShortCode (code : String)
  | save (url : Url)
  | trackVisit (code : String)
  | getVisits (code : String)
deriving Repr, DecidableEq

/-! ## Prisma adapters (`src/adapters/prisma-repository.ts`)

The adapter operations over an in-model database in which the
underlying Prisma calls succeed.  `findAll` orders by `createdAt`
descending; records are appended in creation order with monotone
timestamps, so this is the reverse of insertion order. -/

/-- Embedding of `PrismaUrlRepository`: `save` inserts a row, `findByShortCode` is
the unique-key lookup, `findAll` returns all rows newest first. -/
def prismaUrlRepository : UrlRepository Store where
  save := fun url s => (.ok url, ⟨s.urls ++ [url], s.visits⟩)
  findByShortCode := fun code s =>
    (.ok (s.urls.find? (fun u => u.shortCode == code)), s)
  findAll := fun s => (.ok s.urls.reverse, s)

/-- Embedding of `PrismaAnalyticsRepository`: `trackVisit` looks the record up by
`shortCode` and appends a visit row when it exists (no-op otherwise);
`getVisits` counts the record's visits, 0 for an unknown code. -/
def prismaAnalyticsRepository : AnalyticsRepository Store where
  trackVisit := fun code userAgent s =>
    match s.urls.find? (fun u => u.shortCode == code) with
    | some _ => (.ok (), ⟨s.urls, s.visits ++ [⟨code, userAgent⟩]⟩)
    | none => (.ok (), s)
  getVisits := fun code s =>
    match s.urls.find? (fun u => u.shortCode == code) with
    | some _ => (.ok ((s.visits.filter (fun v => v.shortCode == code)).length), s)
    | none => (.ok 0, s)

/-! ## The shorten use case (`src/use-cases/shorten-url.ts`) -/

/-- An error thrown out of a use case. -/
inductive UseCaseError where
  /-- `InvalidUrlError` thrown by `validateUrl`; carries the message. -/
  | invalidUrl (message : String)
  /-- A `TypeError` of the URL constructor escaping `normalizeUrl`
  (unreachable after validation succeeds). -/
  | typeError (message : String)
  /-- The plain `Error` thrown when all code-generation attempts
  collide — the spec's `GenerationExhausted` kind. -/
  | shortCodeGeneration (message : String)
  /-- A store-layer failure propagated through an `await`. -/
  | store (e : StoreErr)
deriving Repr, DecidableEq

/-- The message of the error thrown when retries are exhausted. -/
def generationExhaustedMessage : String :=
  "Failed to generate unique short code after retries"

/-- The dedup-scan predicate of `ShortenUrlUseCase.execute` step 3:
compare the stored record's normalized locator with the new normalized
locator, falling back to strict string equality when normalizing the
stored locator throws. -/
def dedupMatches (normalizedUrl : String) (url : Url) : Bool :=
  match normalizeUrl url.originalUrl with
  | some n => n == normalizedUrl
  | none => url.originalUrl == normalizedUrl

/-- The `MAX_RETRIES` constant of `ShortenUrlUseCase.execute`. -/
def MAX_RETRIES : Nat := 10

/-- The generate-then-check collision loop of
`ShortenUrlUseCase.execute` step 4.  `gen` models the stream of
candidates `generateShortCode` returns (call number ↦ candidate);
`remaining` counts the attempts left out of `MAX_RETRIES` and
`attempt` the generator calls made so far.  Returns the thrown error
or the saved record, the resulting store and the trace of store
operations performed. -/
def generationLoop {σ : Type} (repo : UrlRepository σ) (gen : Nat → String) (now : Nat)
    (normalizedUrl : String) :
    Nat → Nat → σ → List StoreOp → Except UseCaseError Url × σ × List StoreOp
  | 0, _, s, ops => (.error (.shortCodeGeneration generationExhaustedMessage), s, ops)
  | remaining + 1, attempt, s, ops =>
    let shortCode := gen attempt
    match repo.findByShortCode shortCode s with
    | (.error e, s1) => (.error (.store e), s1, ops ++ [.findByShortCode shortCode])
    | (.ok existing, s1) =>
      let ops := ops ++ [.findByShortCode shortCode]
      match existing with
      | some _ => generationLoop repo gen now normalizedUrl remaining (attempt + 1) s1 ops
      | none =>
        let url : Url := ⟨normalizedUrl, shortCode, now⟩
        match repo.save url s1 with
        | (.error e, s2) => (.error (.store e), s2, ops ++ [.save url])
        | (.ok saved, s2) => (.ok saved, s2, ops ++ [.save url])

/-- Embedding of `ShortenUrlUseCase.execute`: validate, normalize, scan for an
existing record with the same normalized locator, otherwise mint a
fresh code with at most `MAX_RETRIES` generate-then-check attempts.
`now` models `new Date()`.  Returns the result together with the
resulting store state and the trace of store operations performed. -/
def ShortenUrlUseCase.execute {σ : Type} (repo : UrlRepository σ) (gen : Nat → String)
    (now : Nat) (originalUrl : String) (s : σ) :
    Except UseCaseError Url × σ × List StoreOp :=
  match validateUrl originalUrl with
  | .error m => (.error (.invalidUrl m), s, [])
  | .ok () =>
    match normalizeUrl originalUrl with
    | none => (.error (.typeError "Invalid URL"), s, [])
    | some normalizedUrl =>
      match repo.findAll s with
      | (.error e, s1) => (.error (.store e), s1, [.findAll])
      | (.ok allUrls, s1) =>
        match allUrls.find? (dedupMatches normalizedUrl) with
        | some existingUrl => (.ok existingUrl, s1, [.findAll])
        | none => generationLoop repo gen now normalizedUrl MAX_RETRIES 0 s1 [.findAll]

/-! ## The resolve use case (`src/use-cases/get-original-url.ts`) -/

/-- Embedding of `GetOriginalUrlUseCase.execute`: look the record up by `shortCode`;
absent is `none`, not an error; when present, record a visit (awaited,
so a tracking failure propagates) and return the record's
`originalUrl`. -/
def GetOriginalUrlUseCase.execute {σ : Type} (urlRepository : UrlRepository σ)
    (analyticsRepository : AnalyticsRepository σ) (shortCode : String)
    (userAgent : Option String) (s : σ) :
    Except UseCaseError (Option String) × σ × List StoreOp :=
  match urlRepository.findByShortCode shortCode s with
  | (.error e, s1) => (.error (.store e), s1, [.findByShortCode shortCode])
  | (.ok none, s1) => (.ok none, s1, [.findByShortCode shortCode])
  | (.ok (some url), s1) =>
    match analyticsRepository.trackVisit shortCode userAgent s1 with
    | (.error e, s2) =>
      (.error (.store e), s2, [.findByShortCode shortCode, .trackVisit shortCode])
    | (.ok (), s2) =>
      (.ok (some url.originalUrl), s2, [.findByShortCode shortCode, .trackVisit shortCode])

/-- The store state after one resolve call (used to iterate resolves
for visit accounting). -/
def resolveStep (shortCode : String) (userAgent : Option String) (s : Store) : Store :=
  (GetOriginalUrlUseCase.execute prismaUrlRepository prismaAnalyticsRepository
    shortCode userAgent s).2.1

/-- The visit count the analytics adapter reports for a code. -/
def countVisits (shortCode : String) (s : Store) : Nat :=
  match (prismaAnalyticsRepository.getVisits shortCode s).1 with
  | .ok n => n
  | .error _ => 0

/-- The validator as the spec words it (§4.1), for comparison with the
embedded `validateUrl`: five rules applied in order, first failure
winning — non-empty after trimming, parses as a URI, scheme exactly
the secure HTTP scheme, non-empty host, and host neither the loopback
name, the loopback address, a 10.x or 192.168.x prefix, nor a literal
dotted-quad IPv4 address. -/
def validateSpec (raw : String) : Except String Unit :=
  let t := jsTrim raw
  if t.data.length = 0 then .error "URL cannot be empty or whitespace only"
  else
    match URL.parse t with
    | none => .error "Invalid URL format"
    | some u =>
      if u.scheme ≠ "https" then .error "URL must use HTTPS protocol"
      else if u.host.data.length = 0 then .error "URL must have a valid hostname"
      else if u.host = "localhost" ∨ u.host = "127.0.0.1" ∨
          jsStartsWith u.host "10." = true ∨ jsStartsWith u.host "192.168." = true ∨
          isDottedQuad u.host = true then
        .error "URL cannot be a local or private IP address"
      else .ok ()

/-- A store in which ten records already hold the candidate codes a
deterministic generator will produce, while no record matches the new
locator by normalization (their stored locators are unparseable). -/
def takenStore : Store :=
  ⟨(List.range 10).map (fun i => ⟨"x", "code" ++ toString i, 0⟩), []⟩

/-- An analytics adapter whose visit write fails: the underlying
prisma `visit.create` rejects and `handlePrismaError` rethrows a
`DatabaseError` (src/adapters/prisma-repository.ts, `trackVisit`). -/
def failingAnalyticsRepository : AnalyticsRepository Store where
  trackVisit := fun _ _ s => (.error (.db "Failed to track visit"), s)
  getVisits := prismaAnalyticsRepository.getVisits

/-! ## Theorems -/

/-- C4: normalization is claimed idempotent on every input on which it
is defined, but the code removes only a single trailing slash: on
`https://example.com//` (parsed pathname `//`) one application yields
`https://example.com/` and a second application yields
`https://example.com`, so `normalize (normalize x) ≠ normalize x`. -/
theorem normalize_not_idempotent_on_double_slash :
    normalizeUrl "https://example.com//" = some "https://example.com/" ∧
    normalizeUrl "https://example.com/" = some "https://example.com" ∧
    (normalizeUrl "https://example.com//").bind normalizeUrl ≠
      normalizeUrl "https://example.com//" := by
  decide

/-- C1: shortening is claimed idempotent, but calling shorten twice
with the very same valid locator `https://example.com//` creates two
records with distinct short codes: the stored locator is the
normalized form `https://example.com/`, which re-normalizes to
`https://example.com` and therefore never matches the dedup scan, so
the second call saves a duplicate instead of returning the existing
record. -/
theorem shorten_not_idempotent_on_double_slash :
    validateUrl "https://example.com//" = .ok () ∧
    ShortenUrlUseCase.execute prismaUrlRepository (fun _ => "AAAAAAAA") 0
        "https://example.com//" ⟨[], []⟩ =
      (.ok ⟨"https://example.com/", "AAAAAAAA", 0⟩,
       ⟨[⟨"https://example.com/", "AAAAAAAA", 0⟩], []⟩,
       [.findAll, .findByShortCode "AAAAAAAA",
        .save ⟨"https://example.com/", "AAAAAAAA", 0⟩]) ∧
    ShortenUrlUseCase.execute prismaUrlRepository (fun _ => "BBBBBBBB") 1
        "https://example.com//" ⟨[⟨"https://example.com/", "AAAAAAAA", 0⟩], []⟩ =
      (.ok ⟨"https://example.com/", "BBBBBBBB", 1⟩,
       ⟨[⟨"https://example.com/", "AAAAAAAA", 0⟩,
         ⟨"https://example.com/", "BBBBBBBB", 1⟩], []⟩,
       [.findAll, .findByShortCode "BBBBBBBB",
        .save ⟨"https://example.com/", "BBBBBBBB", 1⟩]) := by
  decide

/-- C2: the claim that N sequentially shortened locators with
pairwise-distinct normalizations produce N distinct short codes fails
for N = 2: `https://example.com//` and `https://example.com` have
distinct normalizations, yet after shortening the first (which stores
`https://example.com/`), shortening the second finds that stored
record in the dedup scan (its re-normalization equals the new
normalized locator) and returns the first record, producing one short
code instead of two. -/
theorem uniqueness_fails_on_distinct_normalizations :
    validateUrl "https://example.com//" = .ok () ∧
    validateUrl "https://example.com" = .ok () ∧
    normalizeUrl "https://example.com//" = some "https://example.com/" ∧
    normalizeUrl "https://example.com" = some "https://example.com" ∧
    ("https://example.com/" : String) ≠ "https://example.com" ∧
    (ShortenUrlUseCase.execute prismaUrlRepository (fun _ => "AAAAAAAA") 0
        "https://example.com//" ⟨[], []⟩).2.1 =
      ⟨[⟨"https://example.com/", "AAAAAAAA", 0⟩], []⟩ ∧
    (ShortenUrlUseCase.execute prismaUrlRepository (fun _ => "BBBBBBBB") 1
        "https://example.com" ⟨[⟨"https://example.com/", "AAAAAAAA", 0⟩], []⟩).1 =
      .ok ⟨"https://example.com/", "AAAAAAAA", 0⟩ := by
  decide

/-- C5: the round-trip claim `resolve(shorten(L).shortCode) ==
normalize(L)` fails for `L = https://example.com` against the store
produced by shortening `https://example.com//`: shorten returns the
existing record whose locator is `https://example.com/`, and resolve
of its code returns that stored locator, which differs from
`normalize(L) = https://example.com`. -/
theorem round_trip_fails_after_dedup :
    validateUrl "https://example.com" = .ok () ∧
    normalizeUrl "https://example.com" = some "https://example.com" ∧
    (ShortenUrlUseCase.execute prismaUrlRepository (fun _ => "AAAAAAAA") 0
        "https://example.com//" ⟨[], []⟩).2.1 =
      ⟨[⟨"https://example.com/", "AAAAAAAA", 0⟩], []⟩ ∧
    (ShortenUrlUseCase.execute prismaUrlRepository (fun _ => "BBBBBBBB") 1
        "https://example.com" ⟨[⟨"https://example.com/", "AAAAAAAA", 0⟩], []⟩).1 =
      .ok ⟨"https://example.com/", "AAAAAAAA", 0⟩ ∧
    (GetOriginalUrlUseCase.execute prismaUrlRepository prismaAnalyticsRepository
        "AAAAAAAA" none ⟨[⟨"https://example.com/", "AAAAAAAA", 0⟩], []⟩).1 =
      .ok (some "https://example.com/") ∧
    ("https://example.com/" : String) ≠ "https://example.com" := by
  decide

/-- C7: when validation fails, shorten throws the validator's
`InvalidUrlError` before touching the store: for any repository over
any store state, the result is the validation error, the store state
is returned unchanged, and the trace of store operations is empty. -/
theorem shorten_validation_short_circuits {σ : Type} (repo : UrlRepository σ)
    (gen : Nat → String) (now : Nat) (x m : String) (s : σ)
    (h : validateUrl x = .error m) :
    ShortenUrlUseCase.execute repo gen now x s = (.error (.invalidUrl m), s, []) := by
  unfold ShortenUrlUseCase.execute
  rw [h]

/-- Witness for C7 at the five inputs the claim lists. -/
theorem shorten_validation_short_circuits_witness :
    ShortenUrlUseCase.execute prismaUrlRepository (fun _ => "AAAAAAAA") 0
        "http://example.com" (⟨[], []⟩ : Store) =
      (.error (.invalidUrl "URL must use HTTPS protocol"), ⟨[], []⟩, []) ∧
    ShortenUrlUseCase.execute prismaUrlRepository (fun _ => "AAAAAAAA") 0
        "https://localhost" (⟨[], []⟩ : Store) =
      (.error (.invalidUrl "URL cannot be a local or private IP address"), ⟨[], []⟩, []) ∧
    ShortenUrlUseCase.execute prismaUrlRepository (fun _ => "AAAAAAAA") 0
        "https://192.168.1.1" (⟨[], []⟩ : Store) =
      (.error (.invalidUrl "URL cannot be a local or private IP address"), ⟨[], []⟩, []) ∧
    ShortenUrlUseCase.execute prismaUrlRepository (fun _ => "AAAAAAAA") 0
        "not a url" (⟨[], []⟩ : Store) =
      (.error (.invalidUrl "Invalid URL format"), ⟨[], []⟩, []) ∧
    ShortenUrlUseCase.execute prismaUrlRepository (fun _ => "AAAAAAAA") 0
        "" (⟨[], []⟩ : Store) =
      (.error (.invalidUrl "URL cannot be empty or whitespace only"), ⟨[], []⟩, []) := by
  refine ⟨?_, ?_, ?_, ?_, ?_⟩ <;>
    exact shorten_validation_short_circuits _ _ _ _ _ _ (by decide)

/-- Appending a colon to a string is injective. -/
lemma append_colon_eq_iff (s t : String) : s ++ ":" = t ++ ":" ↔ s = t := by
  cases s with
  | mk a =>
    cases t with
    | mk b =>
      constructor
      · intro h
        have h2 : a ++ [':'] = b ++ [':'] := congrArg String.data h
        have h4 := congrArg List.dropLast h2
        simp only [List.dropLast_concat] at h4
        exact congrArg String.mk h4
      · intro h
        rw [h]

/-- The `protocol` accessor equals `https:` exactly when the scheme is
`https`. -/
lemma protocol_eq_https_iff (u : URLRecord) : u.protocol = "https:" ↔ u.scheme = "https" := by
  have h : ("https:" : String) = "https" ++ ":" := rfl
  rw [URLRecord.protocol, h, append_colon_eq_iff]

/-- C6: the embedded validator agrees with the spec's rule cascade on
every input — the rules are applied in order with the first failure
winning — and it succeeds exactly when all five rules pass: non-empty
after trimming, parseable, scheme `https`, non-empty host, and host
neither local nor private. -/
theorem validateUrl_matches_rule_cascade (x : String) :
    validateUrl x = validateSpec x ∧
    (validateUrl x = .ok () ↔
      (jsTrim x).data.length ≠ 0 ∧
      ∃ u, URL.parse (jsTrim x) = some u ∧ u.scheme = "https" ∧
        u.host.data.length ≠ 0 ∧
        ¬(u.host = "localhost" ∨ u.host = "127.0.0.1" ∨
          jsStartsWith u.host "10." = true ∨ jsStartsWith u.host "192.168." = true ∨
          isDottedQuad u.host = true)) := by
  have hmain : validateUrl x = validateSpec x := by
    unfold validateUrl validateSpec
    by_cases h0 : (jsTrim x).data.length = 0
    · simp only [h0, if_true]
    · simp only [h0, if_false]
      cases hp : URL.parse (jsTrim x) with
      | none => rfl
      | some u =>
        by_cases hs : u.scheme = "https"
        · have hpr : u.protocol = "https:" := (protocol_eq_https_iff u).mpr hs
          simp only [hpr, hs, ne_eq, not_true_eq_false, if_false, URLRecord.hostname]
          by_cases hh : u.host.data.length = 0
          · simp only [hh, if_true]
          · simp only [hh, if_false]
            exact if_congr (by tauto) rfl rfl
        · have hpr : u.protocol ≠ "https:" := fun h => hs ((protocol_eq_https_iff u).mp h)
          simp only [ne_eq, hpr, not_false_eq_true, if_true, hs]
  refine ⟨hmain, ?_⟩
  rw [hmain]
  unfold validateSpec
  constructor
  · intro hok
    by_cases h0 : (jsTrim x).data.length = 0
    · simp only [h0, if_true] at hok
      exact absurd hok (by simp)
    · refine ⟨h0, ?_⟩
      simp only [h0, if_false] at hok
      cases hp : URL.parse (jsTrim x) with
      | none => rw [hp] at hok; exact absurd hok (by simp)
      | some u =>
        rw [hp] at hok
        refine ⟨u, rfl, ?_⟩
        by_cases hs : u.scheme = "https"
        · simp only [hs, ne_eq, not_true_eq_false, if_false] at hok
          by_cases hh : u.host.data.length = 0
          · simp only [hh, if_true] at hok
            exact absurd hok (by simp)
          · simp only [hh, if_false] at hok
            by_cases hpriv : u.host = "localhost" ∨ u.host = "127.0.0.1" ∨
                jsStartsWith u.host "10." = true ∨ jsStartsWith u.host "192.168." = true ∨
                isDottedQuad u.host = true
            · simp only [hpriv, if_true] at hok
              exact absurd hok (by simp)
            · exact ⟨hs, hh, hpriv⟩
        · simp only [hs, ne_eq, not_false_eq_true, if_true] at hok
          exact absurd hok (by simp)
  · rintro ⟨h0, u, hp, hs, hh, hpriv⟩
    simp only [h0, if_false, hp, hs, ne_eq, not_true_eq_false, hh, hpriv, if_true]

/-- Witness for C6: the cascade agreement evaluated at a valid
locator. -/
theorem validateUrl_matches_rule_cascade_witness :
    validateUrl "https://example.com" = validateSpec "https://example.com" ∧
    validateUrl "https://example.com" = .ok () :=
  ⟨(validateUrl_matches_rule_cascade "https://example.com").1, by decide⟩

/-- Projection: the lookup of the Prisma URL repository. -/
lemma prismaUrlRepository_findByShortCode (code : String) (s : Store) :
    prismaUrlRepository.findByShortCode code s =
      (.ok (s.urls.find? (fun u => u.shortCode == code)), s) := rfl

/-- Projection: the full scan of the Prisma URL repository. -/
lemma prismaUrlRepository_findAll (s : Store) :
    prismaUrlRepository.findAll s = (.ok s.urls.reverse, s) := rfl

/-- Projection: the insert of the Prisma URL repository. -/
lemma prismaUrlRepository_save (url : Url) (s : Store) :
    prismaUrlRepository.save url s = (.ok url, ⟨s.urls ++ [url], s.visits⟩) := rfl

/-- When every candidate the generator produces is already taken, the
collision loop consumes all its attempts, performs one lookup per
attempt, leaves the store untouched and reports exhaustion. -/
lemma generationLoop_all_taken (gen : Nat → String) (now : Nat) (n : String) :
    ∀ (remaining attempt : Nat) (s : Store) (ops : List StoreOp),
      (∀ i, attempt ≤ i → i < attempt + remaining →
        (s.urls.find? (fun u => u.shortCode == gen i)).isSome) →
      generationLoop prismaUrlRepository gen now n remaining attempt s ops =
        (.error (.shortCodeGeneration generationExhaustedMessage), s,
         ops ++ (List.range' attempt remaining).map (fun i => .findByShortCode (gen i))) := by
  intro remaining
  induction remaining with
  | zero =>
    intro attempt s ops _
    simp [generationLoop]
  | succ r ih =>
    intro attempt s ops htaken
    have h0 : (s.urls.find? (fun u => u.shortCode == gen attempt)).isSome :=
      htaken attempt (Nat.le_refl _) (by omega)
    obtain ⟨u, hu⟩ := Option.isSome_iff_exists.mp h0
    simp only [generationLoop, prismaUrlRepository_findByShortCode, hu]
    rw [ih (attempt + 1) s (ops ++ [StoreOp.findByShortCode (gen attempt)])
      (fun i hi1 hi2 => htaken i (by omega) (by omega))]
    simp [List.range'_succ, List.append_assoc]

/-- C3: for a valid locator with no normalization-equal record in the
store, if the store reports all ten generated candidates as taken,
shorten fails with the generation-exhausted error after exactly ten
generate-then-lookup attempts (the trace is the dedup scan followed by
ten lookups, no save), and the store is unchanged. -/
theorem shorten_generation_exhausted (gen : Nat → String) (now : Nat) (x n : String)
    (s : Store)
    (hval : validateUrl x = .ok ())
    (hnorm : normalizeUrl x = some n)
    (hscan : s.urls.reverse.find? (dedupMatches n) = none)
    (htaken : ∀ i, i < 10 → (s.urls.find? (fun u => u.shortCode == gen i)).isSome) :
    ShortenUrlUseCase.execute prismaUrlRepository gen now x s =
      (.error (.shortCodeGeneration generationExhaustedMessage), s,
       .findAll :: (List.range 10).map (fun i => .findByShortCode (gen i))) := by
  unfold ShortenUrlUseCase.execute
  simp only [hval, hnorm, prismaUrlRepository_findAll, hscan]
  rw [show MAX_RETRIES = 10 from rfl]
  rw [generationLoop_all_taken gen now n 10 0 s [StoreOp.findAll]
    (fun i hi1 hi2 => htaken i (by omega))]
  simp [List.range_eq_range']

/-- Witness for C3: a deterministic generator and a store already
holding its ten candidates. -/
theorem shorten_generation_exhausted_witness :
    ShortenUrlUseCase.execute prismaUrlRepository (fun i => "code" ++ toString i) 0
        "https://example.com" takenStore =
      (.error (.shortCodeGeneration generationExhaustedMessage), takenStore,
       .findAll ::
         (List.range 10).map (fun i => .findByShortCode ("code" ++ toString i))) :=
  shorten_generation_exhausted (fun i => "code" ++ toString i) 0
    "https://example.com" "https://example.com" takenStore
    (by decide) (by decide) (by decide) (by decide)

/-- Projection: the visit write of the Prisma analytics repository. -/
lemma prismaAnalyticsRepository_trackVisit (code : String) (ua : Option String) (s : Store) :
    prismaAnalyticsRepository.trackVisit code ua s =
      (match s.urls.find? (fun u => u.shortCode == code) with
       | some _ => (.ok (), ⟨s.urls, s.visits ++ [⟨code, ua⟩]⟩)
       | none => (.ok (), s)) := rfl

/-- Resolving a present code returns the record's locator and appends
exactly the one visit row before returning. -/
lemma resolve_present (code : String) (ua : Option String) (s : Store) (u : Url)
    (hu : s.urls.find? (fun r => r.shortCode == code) = some u) :
    GetOriginalUrlUseCase.execute prismaUrlRepository prismaAnalyticsRepository code ua s =
      (.ok (some u.originalUrl), ⟨s.urls, s.visits ++ [⟨code, ua⟩]⟩,
       [.findByShortCode code, .trackVisit code]) := by
  unfold GetOriginalUrlUseCase.execute
  simp only [prismaUrlRepository_findByShortCode, prismaAnalyticsRepository_trackVisit, hu]

/-- One resolve of a present code preserves the record table and
increases the adapter's visit count for that code by one. -/
lemma countVisits_resolveStep (code : String) (ua : Option String) (s : Store)
    (h : (s.urls.find? (fun r => r.shortCode == code)).isSome) :
    countVisits code (resolveStep code ua s) = countVisits code s + 1 ∧
    (resolveStep code ua s).urls = s.urls := by
  obtain ⟨u, hu⟩ := Option.isSome_iff_exists.mp h
  rw [resolveStep, resolve_present code ua s u hu]
  refine ⟨?_, rfl⟩
  unfold countVisits prismaAnalyticsRepository
  simp only [hu]
  simp [List.filter_append]

/-- Iterated resolves of a present code add one visit per resolve. -/
lemma countVisits_iterate (code : String) (ua : Option String) :
    ∀ (K : Nat) (s : Store), (s.urls.find? (fun r => r.shortCode == code)).isSome →
      countVisits code ((resolveStep code ua)^[K] s) = countVisits code s + K := by
  intro K
  induction K with
  | zero => intro s _; simp
  | succ k ih =>
    intro s h
    rw [Function.iterate_succ_apply]
    have hc := countVisits_resolveStep code ua s h
    have h2 : ((resolveStep code ua s).urls.find? (fun r => r.shortCode == code)).isSome := by
      rw [hc.2]; exact h
    rw [ih (resolveStep code ua s) h2, hc.1]
    omega

/-- C8: resolving a present code returns the record's locator and
appends exactly one visit before returning, so K successive resolves
add K to the adapter's visit count (in particular, starting from zero
the count is K); resolving an absent code returns absence (not an
error), records no visit, and leaves the store unchanged. -/
theorem resolve_visit_accounting (code : String) (ua : Option String) (s : Store) :
    (∀ u, s.urls.find? (fun r => r.shortCode == code) = some u →
      GetOriginalUrlUseCase.execute prismaUrlRepository prismaAnalyticsRepository code ua s =
        (.ok (some u.originalUrl), ⟨s.urls, s.visits ++ [⟨code, ua⟩]⟩,
         [.findByShortCode code, .trackVisit code])) ∧
    (s.urls.find? (fun r => r.shortCode == code) = none →
      GetOriginalUrlUseCase.execute prismaUrlRepository prismaAnalyticsRepository code ua s =
        (.ok none, s, [.findByShortCode code])) ∧
    ((s.urls.find? (fun r => r.shortCode == code)).isSome →
      ∀ K, countVisits code ((resolveStep code ua)^[K] s) = countVisits code s + K) := by
  refine ⟨fun u hu => resolve_present code ua s u hu, fun hnone => ?_,
    fun h K => countVisits_iterate code ua K s h⟩
  unfold GetOriginalUrlUseCase.execute
  simp only [prismaUrlRepository_findByShortCode, hnone]

/-- Witness for C8: one record, a present resolve, and three iterated
resolves adding three visits. -/
theorem resolve_visit_accounting_witness :
    GetOriginalUrlUseCase.execute prismaUrlRepository prismaAnalyticsRepository "c1" none
        ⟨[⟨"https://example.com", "c1", 0⟩], []⟩ =
      (.ok (some "https://example.com"),
       ⟨[⟨"https://example.com", "c1", 0⟩], [⟨"c1", none⟩]⟩,
       [.findByShortCode "c1", .trackVisit "c1"]) ∧
    countVisits "c1" ((resolveStep "c1" none)^[3] ⟨[⟨"https://example.com", "c1", 0⟩], []⟩) =
      countVisits "c1" ⟨[⟨"https://example.com", "c1", 0⟩], []⟩ + 3 := by
  have h := resolve_visit_accounting "c1" none ⟨[⟨"https://example.com", "c1", 0⟩], []⟩
  exact ⟨h.1 ⟨"https://example.com", "c1", 0⟩ (by decide), h.2.2 (by decide) 3⟩

/-- After validation succeeds, normalization is defined. -/
lemma validateUrl_ok_normalize (x : String) (h : validateUrl x = .ok ()) :
    (normalizeUrl x).isSome := by
  by_cases h0 : (jsTrim x).data.length = 0
  · unfold validateUrl at h
    simp only [h0, if_true] at h
    exact absurd h (by simp)
  · cases hp : URL.parse (jsTrim x) with
    | none =>
      unfold validateUrl at h
      simp only [h0, if_false, hp] at h
      exact absurd h (by simp)
    | some u =>
      unfold normalizeUrl
      simp only [hp]
      split <;> rfl

/-- After validation, the collision loop either saves and returns a
record or exhausts its attempts without touching the store. -/
lemma generationLoop_ok_or_exhausted (gen : Nat → String) (now : Nat) (n : String) :
    ∀ (remaining attempt : Nat) (s : Store) (ops : List StoreOp),
      (∃ r s2 ops2,
        generationLoop prismaUrlRepository gen now n remaining attempt s ops =
          (.ok r, s2, ops2)) ∨
      (∃ ops2,
        generationLoop prismaUrlRepository gen now n remaining attempt s ops =
          (.error (.shortCodeGeneration generationExhaustedMessage), s, ops2)) := by
  intro remaining
  induction remaining with
  | zero =>
    intro attempt s ops
    right
    exact ⟨ops, by simp [generationLoop]⟩
  | succ r ih =>
    intro attempt s ops
    cases hu : s.urls.find? (fun u => u.shortCode == gen attempt) with
    | none =>
      left
      refine ⟨⟨n, gen attempt, now⟩, ⟨s.urls ++ [⟨n, gen attempt, now⟩], s.visits⟩,
        ops ++ [.findByShortCode (gen attempt)] ++ [.save ⟨n, gen attempt, now⟩], ?_⟩
      simp only [generationLoop, prismaUrlRepository_findByShortCode, hu,
        prismaUrlRepository_save]
    | some u =>
      have h := ih (attempt + 1) s (ops ++ [.findByShortCode (gen attempt)])
      simpa only [generationLoop, prismaUrlRepository_findByShortCode, hu] using h

/-- C9: the dedup scan never propagates a normalization failure of a
stored locator — for a record whose stored locator does not parse, the
scan predicate is exactly strict string equality with the new
normalized locator — and consequently, once validation succeeds,
shorten only ever returns a record or the generation-exhausted error,
regardless of what the store holds. -/
theorem dedup_scan_error_fallback :
    (∀ (n : String) (u : Url), normalizeUrl u.originalUrl = none →
      (dedupMatches n u = true ↔ u.originalUrl = n)) ∧
    (∀ (gen : Nat → String) (now : Nat) (x : String) (s : Store),
      validateUrl x = .ok () →
      (∃ r s2 ops,
        ShortenUrlUseCase.execute prismaUrlRepository gen now x s = (.ok r, s2, ops)) ∨
      (∃ ops,
        ShortenUrlUseCase.execute prismaUrlRepository gen now x s =
          (.error (.shortCodeGeneration generationExhaustedMessage), s, ops))) := by
  constructor
  · intro n u hnone
    unfold dedupMatches
    rw [hnone]
    simp
  · intro gen now x s hval
    obtain ⟨n, hn⟩ := Option.isSome_iff_exists.mp (validateUrl_ok_normalize x hval)
    unfold ShortenUrlUseCase.execute
    simp only [hval, hn, prismaUrlRepository_findAll]
    cases hscan : s.urls.reverse.find? (dedupMatches n) with
    | some u =>
      left
      exact ⟨u, s, [.findAll], by simp only [hscan]⟩
    | none =>
      simp only [hscan]
      rw [show MAX_RETRIES = 10 from rfl]
      exact generationLoop_ok_or_exhausted gen now n 10 0 s [.findAll]

/-- Witness for C9: a stored unparseable locator is compared by strict
equality, and shorten succeeds past it. -/
theorem dedup_scan_error_fallback_witness :
    normalizeUrl "not a url" = none ∧
    (dedupMatches "https://example.com" ⟨"not a url", "c1", 0⟩ = true ↔
      ("not a url" : String) = "https://example.com") ∧
    ((∃ r s2 ops,
        ShortenUrlUseCase.execute prismaUrlRepository (fun _ => "AAAAAAAA") 0
          "https://example.com" ⟨[⟨"not a url", "c1", 0⟩], []⟩ = (.ok r, s2, ops)) ∨
     (∃ ops,
        ShortenUrlUseCase.execute prismaUrlRepository (fun _ => "AAAAAAAA") 0
          "https://example.com" ⟨[⟨"not a url", "c1", 0⟩], []⟩ =
          (.error (.shortCodeGeneration generationExhaustedMessage),
           ⟨[⟨"not a url", "c1", 0⟩], []⟩, ops))) := by
  refine ⟨by decide, ?_, ?_⟩
  · exact dedup_scan_error_fallback.1 "https://example.com" ⟨"not a url", "c1", 0⟩ (by decide)
  · exact dedup_scan_error_fallback.2 (fun _ => "AAAAAAAA") 0 "https://example.com"
      ⟨[⟨"not a url", "c1", 0⟩], []⟩ (by decide)

/-- C10: a successful lookup is not sufficient for resolve to succeed:
when the record is found but the awaited visit write fails with a
store error, resolve propagates that error and does not return the
locator. -/
theorem resolve_propagates_trackVisit_failure {σ : Type} (urlRepo : UrlRepository σ)
    (ana : AnalyticsRepository σ) (code : String) (ua : Option String) (s s1 s2 : σ)
    (u : Url) (e : StoreErr)
    (hfind : urlRepo.findByShortCode code s = (.ok (some u), s1))
    (htrack : ana.trackVisit code ua s1 = (.error e, s2)) :
    GetOriginalUrlUseCase.execute urlRepo ana code ua s =
      (.error (.store e), s2, [.findByShortCode code, .trackVisit code]) := by
  unfold GetOriginalUrlUseCase.execute
  simp only [hfind]
  simp only [htrack]

/-- Witness for C10: a present code whose visit write fails. -/
theorem resolve_propagates_trackVisit_failure_witness :
    GetOriginalUrlUseCase.execute prismaUrlRepository failingAnalyticsRepository
        "AAAAAAAA" none ⟨[⟨"https://example.com", "AAAAAAAA", 0⟩], []⟩ =
      (.error (.store (.db "Failed to track visit")),
       ⟨[⟨"https://example.com", "AAAAAAAA", 0⟩], []⟩,
       [.findByShortCode "AAAAAAAA", .trackVisit "AAAAAAAA"]) :=
  resolve_propagates_trackVisit_failure prismaUrlRepository failingAnalyticsRepository
    "AAAAAAAA" none
    ⟨[⟨"https://example.com", "AAAAAAAA", 0⟩], []⟩
    ⟨[⟨"https://example.com", "AAAAAAAA", 0⟩], []⟩
    ⟨[⟨"https://example.com", "AAAAAAAA", 0⟩], []⟩
    ⟨"https://example.com", "AAAAAAAA", 0⟩ (.db "Failed to track visit")
    (by decide) (by decide)

end UrlShortener
